import Mathlib

/-!
Verification of the quokka radiation moment solver (radiation_system.hpp)
against its natural-language specification. The C++ double-precision
arithmetic is embedded as real arithmetic; per-group state vectors are
functions out of Fin.
-/

namespace QuokkaRad

open scoped Classical

noncomputable section

/-- std::clamp semantics: clamp v to the interval [lo, hi]. -/
def clamp (v lo hi : ℝ) : ℝ := if v < lo then lo else if hi < v then hi else v

/-- RadSystem::ComputeEddingtonFactor (radiation_system.hpp lines 526-543):
clamp the reduced flux to [0,1] and evaluate the Levermore M1 closure. -/
def ComputeEddingtonFactor (f_in : ℝ) : ℝ :=
  let f := clamp f_in 0 1
  let f_fac := Real.sqrt (4 - 3 * (f * f))
  (3 + 4 * (f * f)) / (5 + 2 * f_fac)

/-- A 4-component vector, the per-group block (E_r, Fx, Fy, Fz) of the
conserved hyperbolic state. -/
def vec4 (a b c d : ℝ) : Fin 4 → ℝ := ![a, b, c, d]

/-- Per-group radiation energy floor: the configured Erad_floor divided
evenly across groups (radiation_system.hpp line 145). -/
def Erad_floor_ (Erad_floor : ℝ) (nGroups : ℕ) : ℝ := Erad_floor / nGroups

/-- Hyperbolic radiation state of one cell: for each photon group the four
conserved components indexed 0..3 as (E_r, Fx, Fy, Fz). -/
abbrev RadCons (nG : ℕ) := Fin nG → Fin 4 → ℝ

/-- RadSystem::isStateValid (radiation_system.hpp lines 379-397): every
group has E_r > 0 and reduced flux norm |F|/(c·E_r) at most 1. -/
def isStateValid {nG : ℕ} (c_light : ℝ) (cons : RadCons nG) : Prop :=
  ∀ g : Fin nG, 0 < cons g 0 ∧
    Real.sqrt (cons g 1 * cons g 1 + cons g 2 * cons g 2 + cons g 3 * cons g 3) /
      (c_light * cons g 0) ≤ 1

/-- The energy entry of amendRadState: E_r floored at the per-group floor
(radiation_system.hpp lines 403-407). -/
def amendE {nG : ℕ} (efloor : ℝ) (cons : RadCons nG) (g : Fin nG) : ℝ :=
  if cons g 0 < efloor then efloor else cons g 0

/-- RadSystem::amendRadState (radiation_system.hpp lines 399-418): floor
E_r at the per-group floor, then, if |F|² exceeds (c·E_r)² with the floored
E_r, rescale the flux onto the causal sphere |F| = c·E_r keeping its
direction. -/
def amendRadState {nG : ℕ} (c_light efloor : ℝ) (cons : RadCons nG) : RadCons nG :=
  fun g =>
    if cons g 1 * cons g 1 + cons g 2 * cons g 2 + cons g 3 * cons g 3 >
        c_light * c_light * amendE efloor cons g * amendE efloor cons g then
      vec4 (amendE efloor cons g)
        (cons g 1 / Real.sqrt (cons g 1 * cons g 1 + cons g 2 * cons g 2 + cons g 3 * cons g 3) *
          c_light * amendE efloor cons g)
        (cons g 2 / Real.sqrt (cons g 1 * cons g 1 + cons g 2 * cons g 2 + cons g 3 * cons g 3) *
          c_light * amendE efloor cons g)
        (cons g 3 / Real.sqrt (cons g 1 * cons g 1 + cons g 2 * cons g 2 + cons g 3 * cons g 3) *
          c_light * amendE efloor cons g)
    else vec4 (amendE efloor cons g) (cons g 1) (cons g 2) (cons g 3)

/-- A 3-component spatial vector. -/
def vec3 (a b c : ℝ) : Fin 3 → ℝ := ![a, b, c]

/-- Primitive radiation state of one group: E_r and the reduced flux
components (fx, fy, fz) = F/(c·E_r). -/
structure PrimGroup where
  erad : ℝ
  fx : ℝ
  fy : ℝ
  fz : ℝ

/-- RadSystem::ConservedToPrimitive for one cell and group
(radiation_system.hpp lines 342-367): keep E_r as-is and convert each flux
component F_i to the reduced component F_i/(c·E_r). -/
def ConservedToPrimitive (c_light : ℝ) (u : Fin 4 → ℝ) : PrimGroup :=
  ⟨u 0, u 1 / (c_light * u 0), u 2 / (c_light * u 0), u 3 / (c_light * u 0)⟩

/-- Reconstruction of the un-reduced flux from a primitive state,
F_i = f_i·(c·E_r), as in ComputeFluxes (radiation_system.hpp lines 777-785). -/
def unreducedFlux (c_light : ℝ) (p : PrimGroup) : Fin 3 → ℝ :=
  vec3 (p.fx * (c_light * p.erad)) (p.fy * (c_light * p.erad)) (p.fz * (c_light * p.erad))

/-- RadSystem::SolveLinearEqs (radiation_system.hpp lines 302-311): closed
form solution of the arrow-shaped linear system whose matrix is nonzero
only on the first row, first column, and diagonal. -/
def SolveLinearEqs {nG : ℕ} (a00 : ℝ) (a0i ai0 aii : Fin nG → ℝ) (y0 : ℝ)
    (yi : Fin nG → ℝ) : ℝ × (Fin nG → ℝ) :=
  let ratios : Fin nG → ℝ := fun g => a0i g / aii g
  let x0 := (-(∑ g, ratios g * yi g) + y0) / (-(∑ g, ratios g * ai0 g) + a00)
  (x0, fun g => (yi g - ai0 g * x0) / aii g)

/-- The optional wavespeed-correction flag (radiation_system.hpp line 52);
off by default. -/
def use_wavespeed_correction : Bool := false

/-- Unit direction of the reduced flux, zero when the norm is zero
(ComputeEddingtonTensor lines 629-633). -/
def fluxDir (fx fy fz : ℝ) : Fin 3 → ℝ := fun i =>
  if Real.sqrt (fx * fx + fy * fy + fz * fz) > 0 then
    vec3 fx fy fz i / Real.sqrt (fx * fx + fy * fy + fz * fz)
  else 0

/-- RadSystem::ComputeEddingtonTensor (radiation_system.hpp lines 615-658):
T_ij = (1−χ)/2·δ_ij + (3χ−1)/2·n_i·n_j with χ the Eddington factor of the
reduced-flux norm and n its unit direction. -/
def ComputeEddingtonTensor (fx fy fz : ℝ) : Fin 3 → Fin 3 → ℝ := fun i j =>
  (1 - ComputeEddingtonFactor (Real.sqrt (fx * fx + fy * fy + fz * fz))) / 2 *
    (if i = j then 1 else 0) +
  (3 * ComputeEddingtonFactor (Real.sqrt (fx * fx + fy * fy + fz * fz)) - 1) / 2 *
    (fluxDir fx fy fz i * fluxDir fx fy fz j)

/-- RadSystem::ComputeRadPressure (radiation_system.hpp lines 660-725): the
face-normal flux row (F_n, T_n·erad) of the Eddington tensor and the signal
speed S = max(0.1, √T_nn), for face-normal direction dir. -/
def ComputeRadPressure (dir : Fin 3) (erad Fx Fy Fz fx fy fz : ℝ) : (Fin 4 → ℝ) × ℝ :=
  (vec4 (vec3 Fx Fy Fz dir)
    (ComputeEddingtonTensor fx fy fz dir 0 * erad)
    (ComputeEddingtonTensor fx fy fz dir 1 * erad)
    (ComputeEddingtonTensor fx fy fz dir 2 * erad),
   max 0.1 (Real.sqrt (ComputeEddingtonTensor fx fy fz dir dir)))

/-- The left/right states used by ComputeFluxes for one face and one group
after the admissibility check: primitive values, scalar reduced fluxes, and
un-reduced flux components. -/
structure FaceGroupStates where
  erad_L : ℝ
  erad_R : ℝ
  fx_L : ℝ
  fy_L : ℝ
  fz_L : ℝ
  fx_R : ℝ
  fy_R : ℝ
  fz_R : ℝ
  f_L : ℝ
  f_R : ℝ
  Fx_L : ℝ
  Fy_L : ℝ
  Fz_L : ℝ
  Fx_R : ℝ
  Fy_R : ℝ
  Fz_R : ℝ

/-- Face states built from the high-order reconstructed left/right
primitive pair, with F recomputed as f·(c·E_r)
(radiation_system.hpp lines 760-785). -/
def reconFaceStates (c_light : ℝ) (L R : PrimGroup) : FaceGroupStates :=
  { erad_L := L.erad
    erad_R := R.erad
    fx_L := L.fx
    fy_L := L.fy
    fz_L := L.fz
    fx_R := R.fx
    fy_R := R.fy
    fz_R := R.fz
    f_L := Real.sqrt (L.fx * L.fx + L.fy * L.fy + L.fz * L.fz)
    f_R := Real.sqrt (R.fx * R.fx + R.fy * R.fy + R.fz * R.fz)
    Fx_L := L.fx * (c_light * L.erad)
    Fy_L := L.fy * (c_light * L.erad)
    Fz_L := L.fz * (c_light * L.erad)
    Fx_R := R.fx * (c_light * R.erad)
    Fy_R := R.fy * (c_light * R.erad)
    Fz_R := R.fz * (c_light * R.erad) }

/-- Donor-cell (zeroth-order) face states: conserved values read from the
two adjacent cells, with primitives recomputed from them
(radiation_system.hpp lines 790-813). -/
def donorFaceStates (c_light : ℝ) (consL consR : Fin 4 → ℝ) : FaceGroupStates :=
  { erad_L := consL 0
    erad_R := consR 0
    fx_L := consL 1 / (c_light * consL 0)
    fy_L := consL 2 / (c_light * consL 0)
    fz_L := consL 3 / (c_light * consL 0)
    fx_R := consR 1 / (c_light * consR 0)
    fy_R := consR 2 / (c_light * consR 0)
    fz_R := consR 3 / (c_light * consR 0)
    f_L := Real.sqrt (consL 1 / (c_light * consL 0) * (consL 1 / (c_light * consL 0)) +
      consL 2 / (c_light * consL 0) * (consL 2 / (c_light * consL 0)) +
      consL 3 / (c_light * consL 0) * (consL 3 / (c_light * consL 0)))
    f_R := Real.sqrt (consR 1 / (c_light * consR 0) * (consR 1 / (c_light * consR 0)) +
      consR 2 / (c_light * consR 0) * (consR 2 / (c_light * consR 0)) +
      consR 3 / (c_light * consR 0) * (consR 3 / (c_light * consR 0)))
    Fx_L := consL 1
    Fy_L := consL 2
    Fz_L := consL 3
    Fx_R := consR 1
    Fy_R := consR 2
    Fz_R := consR 3 }

/-- The state-gathering part of RadSystem::ComputeFluxes for one face and
one group (radiation_system.hpp lines 760-814): gather the reconstructed
primitives, then, if the pair is inadmissible (E_r ≤ 0 or f ≥ 1 on either
side), replace every local with the donor-cell conserved values and
recomputed primitives. -/
def gatherFaceStates (c_light : ℝ) (L R : PrimGroup) (consL consR : Fin 4 → ℝ) :
    FaceGroupStates :=
  let erad_L := L.erad
  let erad_R := R.erad
  let fx_L := L.fx
  let fy_L := L.fy
  let fz_L := L.fz
  let fx_R := R.fx
  let fy_R := R.fy
  let fz_R := R.fz
  let f_L := Real.sqrt (fx_L * fx_L + fy_L * fy_L + fz_L * fz_L)
  let f_R := Real.sqrt (fx_R * fx_R + fy_R * fy_R + fz_R * fz_R)
  let Fx_L := fx_L * (c_light * erad_L)
  let Fy_L := fy_L * (c_light * erad_L)
  let Fz_L := fz_L * (c_light * erad_L)
  let Fx_R := fx_R * (c_light * erad_R)
  let Fy_R := fy_R * (c_light * erad_R)
  let Fz_R := fz_R * (c_light * erad_R)
  if erad_L ≤ 0 ∨ erad_R ≤ 0 ∨ f_L ≥ 1 ∨ f_R ≥ 1 then
    let erad_L := consL 0
    let erad_R := consR 0
    let Fx_L := consL 1
    let Fy_L := consL 2
    let Fz_L := consL 3
    let Fx_R := consR 1
    let Fy_R := consR 2
    let Fz_R := consR 3
    let fx_L := Fx_L / (c_light * erad_L)
    let fy_L := Fy_L / (c_light * erad_L)
    let fz_L := Fz_L / (c_light * erad_L)
    let fx_R := Fx_R / (c_light * erad_R)
    let fy_R := Fy_R / (c_light * erad_R)
    let fz_R := Fz_R / (c_light * erad_R)
    let f_L := Real.sqrt (fx_L * fx_L + fy_L * fy_L + fz_L * fz_L)
    let f_R := Real.sqrt (fx_R * fx_R + fy_R * fy_R + fz_R * fz_R)
    { erad_L := erad_L, erad_R := erad_R, fx_L := fx_L, fy_L := fy_L, fz_L := fz_L,
      fx_R := fx_R, fy_R := fy_R, fz_R := fz_R, f_L := f_L, f_R := f_R,
      Fx_L := Fx_L, Fy_L := Fy_L, Fz_L := Fz_L, Fx_R := Fx_R, Fy_R := Fy_R, Fz_R := Fz_R }
  else
    { erad_L := erad_L, erad_R := erad_R, fx_L := fx_L, fy_L := fy_L, fz_L := fz_L,
      fx_R := fx_R, fy_R := fy_R, fz_R := fz_R, f_L := f_L, f_R := f_R,
      Fx_L := Fx_L, Fy_L := Fy_L, Fz_L := Fz_L, Fx_R := Fx_R, Fy_R := Fy_R, Fz_R := Fz_R }

/-- One group's HLL flux computation in RadSystem::ComputeFluxes
(radiation_system.hpp lines 816-871): pressure/wavespeed on each side,
reduced-speed-of-light scaling, optional wavespeed-correction factor ε on
even-parity cells, then the HLL star-state flux F and the purely diffusive
flux (same formula with ε = 1). -/
def computeGroupFluxPair (dir : Fin 3) (c_light c_hat : ℝ) (useWS : Bool)
    (evenCell : Bool) (tau_g : ℝ) (s : FaceGroupStates) : (Fin 4 → ℝ) × (Fin 4 → ℝ) :=
  let PL := ComputeRadPressure dir s.erad_L s.Fx_L s.Fy_L s.Fz_L s.fx_L s.fy_L s.fz_L
  let PR := ComputeRadPressure dir s.erad_R s.Fx_R s.Fy_R s.Fz_R s.fx_R s.fy_R s.fz_R
  let F_L : Fin 4 → ℝ := fun n =>
    if n = 0 then PL.1 n * (c_hat / c_light) else PL.1 n * (c_hat * c_light)
  let F_R : Fin 4 → ℝ := fun n =>
    if n = 0 then PR.1 n * (c_hat / c_light) else PR.1 n * (c_hat * c_light)
  let S_L := -PL.2 * c_hat
  let S_R := PR.2 * c_hat
  let U_L := vec4 s.erad_L s.Fx_L s.Fy_L s.Fz_L
  let U_R := vec4 s.erad_R s.Fx_R s.Fy_R s.Fz_R
  let epsilon : Fin 4 → ℝ :=
    if useWS && evenCell then vec4 (min 1 (1 / tau_g)) 1 1 1 else vec4 1 1 1 1
  (fun n => (S_R / (S_R - S_L)) * F_L n - (S_L / (S_R - S_L)) * F_R n +
      epsilon n * ((S_R * S_L / (S_R - S_L)) * (U_R n - U_L n)),
   fun n => (S_R / (S_R - S_L)) * F_L n - (S_L / (S_R - S_L)) * F_R n +
      (S_R * S_L / (S_R - S_L)) * (U_R n - U_L n))

/-- IMEX PD-ARS scheme coefficient a32 (radiation_system.hpp line 41). -/
def IMEX_a32 : ℝ := 0.5

/-- The per-cell kernel of RadSystem::AddFluxesRK2 (radiation_system.hpp
lines 466-524) in three spatial dimensions: combine the stage-0 and stage-1
states with the old and new flux differences, then enforce state validity
(amending the state if invalid) before it is written out. fluxL d g v and
fluxR d g v are the fluxes through the cell's left and right faces in
dimension d. -/
def AddFluxesRK2_cell {nG : ℕ} (c_light efloor dt : ℝ) (dx : Fin 3 → ℝ)
    (U0 U1 : RadCons nG) (fluxOldL fluxOldR fluxL fluxR : Fin 3 → RadCons nG) :
    RadCons nG :=
  let cons_new : RadCons nG := fun g v =>
    (1 - IMEX_a32) * U0 g v + IMEX_a32 * U1 g v +
      (0.5 - IMEX_a32) * ((dt / dx 0) * (fluxOldL 0 g v - fluxOldR 0 g v) +
        (dt / dx 1) * (fluxOldL 1 g v - fluxOldR 1 g v) +
        (dt / dx 2) * (fluxOldL 2 g v - fluxOldR 2 g v)) +
      0.5 * ((dt / dx 0) * (fluxL 0 g v - fluxR 0 g v) +
        (dt / dx 1) * (fluxL 1 g v - fluxR 1 g v) +
        (dt / dx 2) * (fluxL 2 g v - fluxR 2 g v))
  if isStateValid c_light cons_new then cons_new
  else amendRadState c_light efloor cons_new

/-- The stage-2 IMEX candidate state as the specification states it:
U² = (1−a32)·U⁰ + a32·U¹ + (0.5−a32)·Δt·div(flux⁰) + 0.5·Δt·div(flux¹),
the flux divergences summed over the spatial dimensions, with a32 = 0.5. -/
def specRK2Candidate {nG : ℕ} (dt : ℝ) (dx : Fin 3 → ℝ) (U0 U1 : RadCons nG)
    (fluxOldL fluxOldR fluxL fluxR : Fin 3 → RadCons nG) : RadCons nG :=
  fun g v =>
    (1 - 0.5) * U0 g v + 0.5 * U1 g v +
      (0.5 - 0.5) * (∑ d, (dt / dx d) * (fluxOldL d g v - fluxOldR d g v)) +
      0.5 * (∑ d, (dt / dx d) * (fluxL d g v - fluxR d g v))

/-- Modelled from the spec: integrate_planck_from_0_to_x of
planck_integral.hpp is not among the provided sources; the spec describes
it as numerically integrating the Planck spectral function, which is
positive, from 0 to x, so the integral is strictly increasing on
nonnegative arguments. This predicate captures that property for the
integral parameter I of ComputePlanckEnergyFractions. -/
def PlanckIntegralSpec (I : ℝ → ℝ) : Prop := StrictMonoOn I (Set.Ici 0)

/-- RadSystem::ComputePlanckEnergyFractions (radiation_system.hpp lines
245-268), parameterized by the Planck integral I: with one group the
fraction is exactly 1; otherwise per-group differences of I at the scaled
bin boundaries, normalized by their total. -/
def ComputePlanckEnergyFractions (nG : ℕ) (I : ℝ → ℝ) (energy_unit boltzmann : ℝ)
    (boundaries : Fin (nG + 1) → ℝ) (temperature : ℝ) : Fin nG → ℝ :=
  if nG = 1 then fun _ => 1
  else fun g =>
    (I (boundaries g.succ * (energy_unit / (boltzmann * temperature))) -
      I (boundaries g.castSucc * (energy_unit / (boltzmann * temperature)))) /
    ∑ g2 : Fin nG, (I (boundaries g2.succ * (energy_unit / (boltzmann * temperature))) -
      I (boundaries g2.castSucc * (energy_unit / (boltzmann * temperature))))

/-- Per-iteration data the inner Newton-Raphson loop of
RadSystem::AddSourceTerms reads in its radiation-energy update: optical
depths tau, opacity ratios kappaPoverE, emission fourPiBoverC, rescaled
residuals Rvec, and work terms. -/
structure NewtonIterData (nG : ℕ) where
  tau : Fin nG → ℝ
  kappaPoverE : Fin nG → ℝ
  fourPiBoverC : Fin nG → ℝ
  Rvec : Fin nG → ℝ
  work : Fin nG → ℝ

/-- The EradVec_guess update of one inner Newton iteration
(radiation_system.hpp lines 1294-1299): the entry is overwritten only when
tau[g] > 0. -/
def newtonEradUpdate {nG : ℕ} (d : NewtonIterData nG) (EradVec : Fin nG → ℝ) :
    Fin nG → ℝ := fun g =>
  if 0 < d.tau g then
    d.kappaPoverE g * (d.fourPiBoverC g - (d.Rvec g - d.work g) / d.tau g)
  else EradVec g

/-- EradVec_guess across the inner Newton iterations: initialized to
Erad0Vec (radiation_system.hpp line 1100) and updated each iteration by
newtonEradUpdate with that iteration's data. -/
def newtonEradIterate {nG : ℕ} (ds : ℕ → NewtonIterData nG) (Erad0Vec : Fin nG → ℝ) :
    ℕ → Fin nG → ℝ
  | 0 => Erad0Vec
  | n + 1 => newtonEradUpdate (ds n) (newtonEradIterate ds Erad0Vec n)

/-- The F_G residual accumulation (radiation_system.hpp lines 1300-1309):
Egas_guess − Egas0 plus (c/ĉ)·Rvec[g] summed over the groups with
tau[g] > 0 only. -/
def F_G_residual {nG : ℕ} (c_light c_hat Egas_guess Egas0 : ℝ)
    (tau Rvec : Fin nG → ℝ) : ℝ :=
  Egas_guess - Egas0 + ∑ g, (if 0 < tau g then (c_light / c_hat) * Rvec g else 0)

/-- The F_D convergence sum (radiation_system.hpp lines 1303-1309):
|F_D[g]| summed over the groups with tau[g] > 0 only. -/
def F_D_abs_sum {nG : ℕ} (tau F_D : Fin nG → ℝ) : ℝ :=
  ∑ g, (if 0 < tau g then |F_D g| else 0)

end

/-- Evaluation of vec3 at index 0. -/
theorem vec3_e0 (a b c : ℝ) : vec3 a b c 0 = a := rfl

/-- Evaluation of vec3 at index 1. -/
theorem vec3_e1 (a b c : ℝ) : vec3 a b c 1 = b := rfl

/-- Evaluation of vec3 at index 2. -/
theorem vec3_e2 (a b c : ℝ) : vec3 a b c 2 = c := rfl

/-- Evaluation of vec4 at index 0. -/
theorem vec4_e0 (a b c d : ℝ) : vec4 a b c d 0 = a := rfl

/-- Evaluation of vec4 at index 1. -/
theorem vec4_e1 (a b c d : ℝ) : vec4 a b c d 1 = b := rfl

/-- Evaluation of vec4 at index 2. -/
theorem vec4_e2 (a b c d : ℝ) : vec4 a b c d 2 = c := rfl

/-- Evaluation of vec4 at index 3. -/
theorem vec4_e3 (a b c d : ℝ) : vec4 a b c d 3 = d := rfl

/-- The clamped value lies in [lo, hi] whenever lo ≤ hi. -/
theorem clamp_mem (v lo hi : ℝ) (h : lo ≤ hi) : lo ≤ clamp v lo hi ∧ clamp v lo hi ≤ hi := by
  unfold clamp
  split_ifs with h1 h2 <;> constructor <;> linarith

/-- Bounds for the Levermore closure: for every real input the Eddington
factor lies in [1/3, 1]. -/
theorem eddington_factor_bounds (f_in : ℝ) :
    1 / 3 ≤ ComputeEddingtonFactor f_in ∧ ComputeEddingtonFactor f_in ≤ 1 := by
  unfold ComputeEddingtonFactor
  obtain ⟨hg0, hg1⟩ := clamp_mem f_in 0 1 (by norm_num)
  set g := clamp f_in 0 1 with hg
  have hgsq0 : 0 ≤ g * g := mul_nonneg hg0 hg0
  have hgsq1 : g * g ≤ 1 := by nlinarith
  have harg1 : (1 : ℝ) ≤ 4 - 3 * (g * g) := by nlinarith
  have harg4 : 4 - 3 * (g * g) ≤ 4 := by nlinarith
  have hs1 : (1 : ℝ) ≤ Real.sqrt (4 - 3 * (g * g)) := by
    rw [show (1 : ℝ) = Real.sqrt 1 by rw [Real.sqrt_one]]
    exact Real.sqrt_le_sqrt harg1
  have hs2 : Real.sqrt (4 - 3 * (g * g)) ≤ 2 := by
    rw [show (2 : ℝ) = Real.sqrt 4 by
      rw [show (4 : ℝ) = 2 ^ 2 by norm_num, Real.sqrt_sq (by norm_num : (0:ℝ) ≤ 2)]]
    exact Real.sqrt_le_sqrt harg4
  have hden : (0 : ℝ) < 5 + 2 * Real.sqrt (4 - 3 * (g * g)) := by linarith
  constructor
  · rw [le_div_iff₀ hden]
    nlinarith
  · rw [div_le_one hden]
    nlinarith

/-- Claim C2: for every real input f, ComputeEddingtonFactor f equals
(3+4g²)/(5+2√(4−3g²)) with g = f clamped to [0,1]; for all f in [0,1] the
result lies in [1/3, 1]; ComputeEddingtonFactor 0 = 1/3 and
ComputeEddingtonFactor 1 = 1 (exactly, hence within 1e-12). -/
theorem eddington_factor_spec :
    (∀ f : ℝ, ComputeEddingtonFactor f =
      (3 + 4 * (clamp f 0 1) ^ 2) / (5 + 2 * Real.sqrt (4 - 3 * (clamp f 0 1) ^ 2))) ∧
    (∀ f : ℝ, f ∈ Set.Icc (0 : ℝ) 1 →
      ComputeEddingtonFactor f ∈ Set.Icc (1 / 3 : ℝ) 1) ∧
    ComputeEddingtonFactor 0 = 1 / 3 ∧ ComputeEddingtonFactor 1 = 1 := by
  have hsqrt4 : Real.sqrt 4 = 2 := by
    rw [show (4 : ℝ) = 2 ^ 2 by norm_num, Real.sqrt_sq (by norm_num : (0:ℝ) ≤ 2)]
  refine ⟨?_, ?_, ?_, ?_⟩
  · intro f
    unfold ComputeEddingtonFactor
    ring_nf
  · intro f _
    exact ⟨(eddington_factor_bounds f).1, (eddington_factor_bounds f).2⟩
  · unfold ComputeEddingtonFactor clamp
    norm_num [hsqrt4]
  · unfold ComputeEddingtonFactor clamp
    norm_num [Real.sqrt_one]

/-- The floored energy is at least the floor. -/
theorem amendE_ge {nG : ℕ} (efloor : ℝ) (cons : RadCons nG) (g : Fin nG) :
    efloor ≤ amendE efloor cons g := by
  unfold amendE
  split_ifs with h
  · exact le_refl _
  · exact le_of_not_lt h

/-- Per-group analysis of amendRadState with a positive floor: the amended
energy is at least the floor and positive, the amended flux is causal, and
it is a positive multiple of the original flux. -/
theorem amend_group_spec {nG : ℕ} (c_light efloor : ℝ) (cons : RadCons nG)
    (hc : 0 < c_light) (hf : 0 < efloor) (g : Fin nG) :
    efloor ≤ amendRadState c_light efloor cons g 0 ∧
    0 < amendRadState c_light efloor cons g 0 ∧
    Real.sqrt (amendRadState c_light efloor cons g 1 * amendRadState c_light efloor cons g 1 +
        amendRadState c_light efloor cons g 2 * amendRadState c_light efloor cons g 2 +
        amendRadState c_light efloor cons g 3 * amendRadState c_light efloor cons g 3) /
      (c_light * amendRadState c_light efloor cons g 0) ≤ 1 ∧
    ∃ k : ℝ, 0 < k ∧
      amendRadState c_light efloor cons g 1 = k * cons g 1 ∧
      amendRadState c_light efloor cons g 2 = k * cons g 2 ∧
      amendRadState c_light efloor cons g 3 = k * cons g 3 := by
  have hEf : efloor ≤ amendE efloor cons g := amendE_ge efloor cons g
  have hE0 : 0 < amendE efloor cons g := lt_of_lt_of_le hf hEf
  set E := amendE efloor cons g with hEdef
  set Fx := cons g 1 with hFx
  set Fy := cons g 2 with hFy
  set Fz := cons g 3 with hFz
  have hcE : 0 < c_light * E := mul_pos hc hE0
  by_cases hcond : Fx * Fx + Fy * Fy + Fz * Fz > c_light * c_light * E * E
  · have hamend : amendRadState c_light efloor cons g =
        vec4 E (Fx / Real.sqrt (Fx * Fx + Fy * Fy + Fz * Fz) * c_light * E)
          (Fy / Real.sqrt (Fx * Fx + Fy * Fy + Fz * Fz) * c_light * E)
          (Fz / Real.sqrt (Fx * Fx + Fy * Fy + Fz * Fz) * c_light * E) := by
      simp only [amendRadState]
      rw [← hEdef, ← hFx, ← hFy, ← hFz, if_pos hcond]
    have hS0 : 0 < Fx * Fx + Fy * Fy + Fz * Fz :=
      lt_trans (mul_pos (mul_pos (mul_pos hc hc) hE0) hE0) hcond
    set Fn := Real.sqrt (Fx * Fx + Fy * Fy + Fz * Fz) with hFn
    have hFnpos : 0 < Fn := Real.sqrt_pos.mpr hS0
    have hk : 0 < c_light * E / Fn := div_pos hcE hFnpos
    rw [hamend, vec4_e0, vec4_e1, vec4_e2, vec4_e3]
    refine ⟨hEf, hE0, ?_, ⟨c_light * E / Fn, hk, by ring, by ring, by ring⟩⟩
    have harg : Fx / Fn * c_light * E * (Fx / Fn * c_light * E) +
        Fy / Fn * c_light * E * (Fy / Fn * c_light * E) +
        Fz / Fn * c_light * E * (Fz / Fn * c_light * E) =
        (c_light * E / Fn) ^ 2 * (Fx * Fx + Fy * Fy + Fz * Fz) := by ring
    rw [harg, Real.sqrt_mul (sq_nonneg _), Real.sqrt_sq hk.le, ← hFn,
      div_mul_cancel₀ _ (ne_of_gt hFnpos), div_self (ne_of_gt hcE)]
  · have hamend : amendRadState c_light efloor cons g = vec4 E Fx Fy Fz := by
      simp only [amendRadState]
      rw [← hEdef, ← hFx, ← hFy, ← hFz, if_neg hcond]
    have hS : Fx * Fx + Fy * Fy + Fz * Fz ≤ c_light * c_light * E * E := le_of_not_lt hcond
    rw [hamend, vec4_e0, vec4_e1, vec4_e2, vec4_e3]
    refine ⟨hEf, hE0, ?_, ⟨1, one_pos, by ring, by ring, by ring⟩⟩
    rw [div_le_one hcE]
    calc Real.sqrt (Fx * Fx + Fy * Fy + Fz * Fz)
        ≤ Real.sqrt (c_light * c_light * E * E) := Real.sqrt_le_sqrt hS
      _ = c_light * E := by
          rw [show c_light * c_light * E * E = (c_light * E) ^ 2 by ring,
            Real.sqrt_sq hcE.le]

/-- Claim C1 (amended): provided the per-group floor Erad_floor/nGroups is
positive (and c > 0), applying amendRadState to any radiation state yields a
state that isStateValid accepts: every group's E_r is positive and at least
the per-group floor, every group's flux satisfies |F| ≤ c·E_r, and every
group's amended flux is a positive multiple of its original flux (direction
preserved when rescaled). -/
theorem amendRadState_produces_valid {nG : ℕ} (c_light efloor : ℝ) (cons : RadCons nG)
    (hc : 0 < c_light) (hf : 0 < efloor) :
    isStateValid c_light (amendRadState c_light efloor cons) ∧
    (∀ g : Fin nG, efloor ≤ amendRadState c_light efloor cons g 0) ∧
    (∀ g : Fin nG, ∃ k : ℝ, 0 < k ∧
      amendRadState c_light efloor cons g 1 = k * cons g 1 ∧
      amendRadState c_light efloor cons g 2 = k * cons g 2 ∧
      amendRadState c_light efloor cons g 3 = k * cons g 3) := by
  refine ⟨fun g => ?_, fun g => (amend_group_spec c_light efloor cons hc hf g).1,
    fun g => (amend_group_spec c_light efloor cons hc hf g).2.2.2⟩
  obtain ⟨-, h0, hcausal, -⟩ := amend_group_spec c_light efloor cons hc hf g
  exact ⟨h0, hcausal⟩

/-- Witness for Claim C1's amended theorem: one group, c = 1, per-group
floor 1, all-zero input state. -/
theorem amendRadState_produces_valid_witness :
    isStateValid 1 (amendRadState 1 1 ((fun _ _ => 0) : RadCons 1)) ∧
    (∀ g : Fin 1, (1:ℝ) ≤ amendRadState 1 1 ((fun _ _ => 0) : RadCons 1) g 0) ∧
    (∀ g : Fin 1, ∃ k : ℝ, 0 < k ∧
      amendRadState 1 1 ((fun _ _ => 0) : RadCons 1) g 1 = k * 0 ∧
      amendRadState 1 1 ((fun _ _ => 0) : RadCons 1) g 2 = k * 0 ∧
      amendRadState 1 1 ((fun _ _ => 0) : RadCons 1) g 3 = k * 0) := by
  exact amendRadState_produces_valid 1 1 ((fun _ _ => 0) : RadCons 1)
    (by norm_num) (by norm_num)

/-- Claim C1 counterexample: with the repository's default Erad_floor = 0
(so per-group floor 0/1 = 0) and the all-zero one-group state, amendRadState
leaves E_r = 0 and the amended state fails isStateValid, which requires
E_r > 0. -/
theorem amendRadState_not_always_valid :
    ¬ isStateValid 1 (amendRadState 1 (Erad_floor_ 0 1) ((fun _ _ => 0) : RadCons 1)) := by
  intro h
  have h0 := (h 0).1
  norm_num [amendRadState, amendE, Erad_floor_, vec4] at h0

/-- Claim C5: for every cell and group with E_r > 0 (and c > 0),
ConservedToPrimitive followed by reconstructing F_i = f_i·c·E_r reproduces
the original flux components exactly, for each of the three components, and
keeps E_r unchanged. -/
theorem conserved_primitive_round_trip (c_light : ℝ) (u : Fin 4 → ℝ)
    (hc : 0 < c_light) (hE : 0 < u 0) :
    (ConservedToPrimitive c_light u).erad = u 0 ∧
    unreducedFlux c_light (ConservedToPrimitive c_light u) 0 = u 1 ∧
    unreducedFlux c_light (ConservedToPrimitive c_light u) 1 = u 2 ∧
    unreducedFlux c_light (ConservedToPrimitive c_light u) 2 = u 3 := by
  have hne : c_light * u 0 ≠ 0 := (mul_pos hc hE).ne'
  refine ⟨rfl, ?_, ?_, ?_⟩
  · show u 1 / (c_light * u 0) * (c_light * u 0) = u 1
    exact div_mul_cancel₀ _ hne
  · show u 2 / (c_light * u 0) * (c_light * u 0) = u 2
    exact div_mul_cancel₀ _ hne
  · show u 3 / (c_light * u 0) * (c_light * u 0) = u 3
    exact div_mul_cancel₀ _ hne

/-- Witness for Claim C5: the all-ones conserved state with c = 1. -/
theorem conserved_primitive_round_trip_witness :
    (ConservedToPrimitive 1 ((fun _ => 1) : Fin 4 → ℝ)).erad = 1 ∧
    unreducedFlux 1 (ConservedToPrimitive 1 ((fun _ => 1) : Fin 4 → ℝ)) 0 = 1 ∧
    unreducedFlux 1 (ConservedToPrimitive 1 ((fun _ => 1) : Fin 4 → ℝ)) 1 = 1 ∧
    unreducedFlux 1 (ConservedToPrimitive 1 ((fun _ => 1) : Fin 4 → ℝ)) 2 = 1 :=
  conserved_primitive_round_trip 1 (fun _ => 1) one_pos one_pos

/-- Claim C4: for every coefficient set with all aii nonzero and nonzero
Schur complement a00 − Σ (a0i/aii)·ai0, SolveLinearEqs returns (x0, xi)
exactly solving a00·x0 + Σ a0i·xi = y0 and ai0·x0 + aii·xi = yi per group. -/
theorem SolveLinearEqs_solves {nG : ℕ} (a00 : ℝ) (a0i ai0 aii : Fin nG → ℝ)
    (y0 : ℝ) (yi : Fin nG → ℝ) (haii : ∀ g, aii g ≠ 0)
    (hden : a00 - ∑ g, a0i g / aii g * ai0 g ≠ 0) :
    a00 * (SolveLinearEqs a00 a0i ai0 aii y0 yi).1 +
      ∑ g, a0i g * (SolveLinearEqs a00 a0i ai0 aii y0 yi).2 g = y0 ∧
    ∀ g, ai0 g * (SolveLinearEqs a00 a0i ai0 aii y0 yi).1 +
      aii g * (SolveLinearEqs a00 a0i ai0 aii y0 yi).2 g = yi g := by
  simp only [SolveLinearEqs]
  set x0 := (-(∑ g, a0i g / aii g * yi g) + y0) /
    (-(∑ g, a0i g / aii g * ai0 g) + a00) with hx0def
  have hden' : -(∑ g, a0i g / aii g * ai0 g) + a00 ≠ 0 := by
    rwa [sub_eq_neg_add] at hden
  have hx0D : x0 * (-(∑ g, a0i g / aii g * ai0 g) + a00) =
      -(∑ g, a0i g / aii g * yi g) + y0 := by
    rw [hx0def]
    exact div_mul_cancel₀ _ hden'
  constructor
  · have hsum : ∑ g, a0i g * ((yi g - ai0 g * x0) / aii g) =
        (∑ g, a0i g / aii g * yi g) - (∑ g, a0i g / aii g * ai0 g) * x0 := by
      have hterm : ∀ g ∈ Finset.univ, a0i g * ((yi g - ai0 g * x0) / aii g) =
          a0i g / aii g * yi g - a0i g / aii g * ai0 g * x0 := by
        intro g _
        field_simp
        ring
      rw [Finset.sum_congr rfl hterm, Finset.sum_sub_distrib, ← Finset.sum_mul]
    rw [hsum]
    linear_combination hx0D
  · intro g
    have h1 : aii g * ((yi g - ai0 g * x0) / aii g) = yi g - ai0 g * x0 := by
      field_simp
      exact mul_div_cancel_left₀ _ (haii g)
    rw [h1]
    ring

/-- Witness for Claim C4: one group, a00 = 2, a0i = ai0 = aii = 1,
y0 = 3, yi = 4 (Schur complement 2 − 1 = 1 ≠ 0). -/
theorem SolveLinearEqs_solves_witness :
    (2:ℝ) * (SolveLinearEqs 2 (fun _ => 1) (fun _ => 1) (fun _ => 1) 3
        ((fun _ => 4) : Fin 1 → ℝ)).1 +
      ∑ g : Fin 1, (1:ℝ) * (SolveLinearEqs (2:ℝ) (fun _ => 1) (fun _ => 1) (fun _ => 1) 3
        ((fun _ => 4) : Fin 1 → ℝ)).2 g = 3 ∧
    ∀ g : Fin 1, (1:ℝ) * (SolveLinearEqs (2:ℝ) (fun _ => 1) (fun _ => 1) (fun _ => 1) 3
        ((fun _ => 4) : Fin 1 → ℝ)).1 +
      1 * (SolveLinearEqs (2:ℝ) (fun _ => 1) (fun _ => 1) (fun _ => 1) 3
        ((fun _ => 4) : Fin 1 → ℝ)).2 g = 4 :=
  SolveLinearEqs_solves 2 (fun _ => 1) (fun _ => 1) (fun _ => 1) 3 (fun _ => 4)
    (fun _ => one_ne_zero) (by norm_num [Fin.sum_univ_one])

/-- Claim C3: for every face and group, an inadmissible reconstructed
left/right primitive pair (E_r ≤ 0 or f ≥ 1 on either side) makes the
solver use the donor-cell (zeroth-order) conserved values from the two
adjacent cells with primitives recomputed from them; otherwise the
reconstructed states are used unchanged, with F = f·c·E_r. -/
theorem flux_admissibility_fallback (c_light : ℝ) (L R : PrimGroup)
    (consL consR : Fin 4 → ℝ) :
    (L.erad ≤ 0 ∨ R.erad ≤ 0 ∨
        Real.sqrt (L.fx * L.fx + L.fy * L.fy + L.fz * L.fz) ≥ 1 ∨
        Real.sqrt (R.fx * R.fx + R.fy * R.fy + R.fz * R.fz) ≥ 1 →
      gatherFaceStates c_light L R consL consR = donorFaceStates c_light consL consR) ∧
    (¬ (L.erad ≤ 0 ∨ R.erad ≤ 0 ∨
        Real.sqrt (L.fx * L.fx + L.fy * L.fy + L.fz * L.fz) ≥ 1 ∨
        Real.sqrt (R.fx * R.fx + R.fy * R.fy + R.fz * R.fz) ≥ 1) →
      gatherFaceStates c_light L R consL consR = reconFaceStates c_light L R) := by
  constructor
  · intro h
    simp only [gatherFaceStates]
    rw [if_pos h]
    rfl
  · intro h
    simp only [gatherFaceStates]
    rw [if_neg h]
    rfl

/-- Claim C6: use_wavespeed_correction defaults to false, and with it off
the high-resolution HLL flux equals the purely diffusive flux component by
component, for every face, group, parity, cell optical depth and input
states, since the correction factor ε is the identity. -/
theorem fluxes_equal_without_wavespeed_correction :
    use_wavespeed_correction = false ∧
    ∀ (dir : Fin 3) (c_light c_hat tau_g : ℝ) (evenCell : Bool) (s : FaceGroupStates),
      (computeGroupFluxPair dir c_light c_hat use_wavespeed_correction evenCell tau_g s).1 =
      (computeGroupFluxPair dir c_light c_hat use_wavespeed_correction evenCell tau_g s).2 := by
  refine ⟨rfl, ?_⟩
  intro dir c_light c_hat tau_g evenCell s
  funext n
  fin_cases n <;>
    simp [computeGroupFluxPair, use_wavespeed_correction, vec4]

/-- Each component of a 3-vector divided by the vector's euclidean norm has
square at most 1. -/
theorem comp_div_norm_sq_le_one (fx fy fz : ℝ) (dir : Fin 3)
    (h : 0 < Real.sqrt (fx * fx + fy * fy + fz * fz)) :
    vec3 fx fy fz dir / Real.sqrt (fx * fx + fy * fy + fz * fz) *
      (vec3 fx fy fz dir / Real.sqrt (fx * fx + fy * fy + fz * fz)) ≤ 1 := by
  rw [div_mul_div_comm, div_le_one (mul_pos h h)]
  have hff : Real.sqrt (fx * fx + fy * fy + fz * fz) *
      Real.sqrt (fx * fx + fy * fy + fz * fz) = fx * fx + fy * fy + fz * fz :=
    Real.mul_self_sqrt
      (add_nonneg (add_nonneg (mul_self_nonneg fx) (mul_self_nonneg fy)) (mul_self_nonneg fz))
  rw [hff]
  fin_cases dir <;>
    simp [vec3] <;>
    nlinarith [mul_self_nonneg fx, mul_self_nonneg fy, mul_self_nonneg fz]

/-- The square of a flux-direction component is at most 1. -/
theorem fluxDir_sq_le_one (fx fy fz : ℝ) (dir : Fin 3) :
    fluxDir fx fy fz dir * fluxDir fx fy fz dir ≤ 1 := by
  unfold fluxDir
  by_cases h : Real.sqrt (fx * fx + fy * fy + fz * fz) > 0
  · rw [if_pos h]
    exact comp_div_norm_sq_le_one fx fy fz dir h
  · rw [if_neg h]
    norm_num

/-- The face-normal Eddington tensor component lies in [0, 1]. -/
theorem eddington_Tnn_bounds (fx fy fz : ℝ) (dir : Fin 3) :
    0 ≤ ComputeEddingtonTensor fx fy fz dir dir ∧
      ComputeEddingtonTensor fx fy fz dir dir ≤ 1 := by
  have hchi := eddington_factor_bounds (Real.sqrt (fx * fx + fy * fy + fz * fz))
  have hd := fluxDir_sq_le_one fx fy fz dir
  have hd0 : 0 ≤ fluxDir fx fy fz dir * fluxDir fx fy fz dir := mul_self_nonneg _
  simp only [ComputeEddingtonTensor, eq_self_iff_true, if_true, mul_one]
  constructor <;> nlinarith [hchi.1, hchi.2]

/-- The signal speed returned by ComputeRadPressure lies in [0.1, 1], for
every input. -/
theorem radPressure_S_bounds (dir : Fin 3) (erad Fx Fy Fz fx fy fz : ℝ) :
    0.1 ≤ (ComputeRadPressure dir erad Fx Fy Fz fx fy fz).2 ∧
      (ComputeRadPressure dir erad Fx Fy Fz fx fy fz).2 ≤ 1 := by
  have hT := eddington_Tnn_bounds fx fy fz dir
  simp only [ComputeRadPressure]
  exact ⟨le_max_left _ _, max_le (by norm_num) (Real.sqrt_le_one.mpr hT.2)⟩

/-- Claim C10: with erad > 0 on both sides, each side's signal speed lies in
[0.1, 1]; after scaling by ĉ > 0 as in ComputeFluxes (S_L = −S·ĉ,
S_R = S·ĉ) we get |S_L| ≤ ĉ, |S_R| ≤ ĉ, and S_R − S_L ≥ 0.2·ĉ > 0, so the
HLL star-state division by S_R − S_L is well-defined. -/
theorem rad_wavespeeds_well_defined (dir : Fin 3)
    (eradL FxL FyL FzL fxL fyL fzL eradR FxR FyR FzR fxR fyR fzR c_hat : ℝ)
    (hL : 0 < eradL) (hR : 0 < eradR) (hchat : 0 < c_hat) :
    (0.1 ≤ (ComputeRadPressure dir eradL FxL FyL FzL fxL fyL fzL).2 ∧
      (ComputeRadPressure dir eradL FxL FyL FzL fxL fyL fzL).2 ≤ 1) ∧
    (0.1 ≤ (ComputeRadPressure dir eradR FxR FyR FzR fxR fyR fzR).2 ∧
      (ComputeRadPressure dir eradR FxR FyR FzR fxR fyR fzR).2 ≤ 1) ∧
    |(-(ComputeRadPressure dir eradL FxL FyL FzL fxL fyL fzL).2) * c_hat| ≤ c_hat ∧
    |(ComputeRadPressure dir eradR FxR FyR FzR fxR fyR fzR).2 * c_hat| ≤ c_hat ∧
    0.2 * c_hat ≤ (ComputeRadPressure dir eradR FxR FyR FzR fxR fyR fzR).2 * c_hat -
      (-(ComputeRadPressure dir eradL FxL FyL FzL fxL fyL fzL).2) * c_hat ∧
    0 < (ComputeRadPressure dir eradR FxR FyR FzR fxR fyR fzR).2 * c_hat -
      (-(ComputeRadPressure dir eradL FxL FyL FzL fxL fyL fzL).2) * c_hat := by
  obtain ⟨hL1, hL2⟩ := radPressure_S_bounds dir eradL FxL FyL FzL fxL fyL fzL
  obtain ⟨hR1, hR2⟩ := radPressure_S_bounds dir eradR FxR FyR FzR fxR fyR fzR
  refine ⟨⟨hL1, hL2⟩, ⟨hR1, hR2⟩, ?_, ?_, ?_, ?_⟩
  · rw [abs_le]
    constructor <;> nlinarith
  · rw [abs_le]
    constructor <;> nlinarith
  · nlinarith
  · nlinarith

/-- Witness for Claim C10: x1 direction, unit energies, zero fluxes, ĉ = 1. -/
theorem rad_wavespeeds_well_defined_witness :
    (0.1 ≤ (ComputeRadPressure 0 1 0 0 0 0 0 0).2 ∧
      (ComputeRadPressure 0 1 0 0 0 0 0 0).2 ≤ 1) ∧
    (0.1 ≤ (ComputeRadPressure 0 1 0 0 0 0 0 0).2 ∧
      (ComputeRadPressure 0 1 0 0 0 0 0 0).2 ≤ 1) ∧
    |(-(ComputeRadPressure 0 1 0 0 0 0 0 0).2) * 1| ≤ 1 ∧
    |(ComputeRadPressure 0 1 0 0 0 0 0 0).2 * 1| ≤ 1 ∧
    0.2 * 1 ≤ (ComputeRadPressure 0 1 0 0 0 0 0 0).2 * 1 -
      (-(ComputeRadPressure 0 1 0 0 0 0 0 0).2) * 1 ∧
    0 < (ComputeRadPressure 0 1 0 0 0 0 0 0).2 * 1 -
      (-(ComputeRadPressure 0 1 0 0 0 0 0 0).2) * 1 :=
  rad_wavespeeds_well_defined 0 1 0 0 0 0 0 0 1 0 0 0 0 0 0 1
    one_pos one_pos one_pos

/-- Claim C7: the stage-2 kernel computes the candidate state
(1−a32)·U⁰ + a32·U¹ + (0.5−a32)·Δt·div(flux⁰) + 0.5·Δt·div(flux¹) with the
divergences summed over the spatial dimensions and a32 = 0.5 by default,
and then enforces state validity (amending if invalid) before writing. -/
theorem AddFluxesRK2_stage2_formula :
    IMEX_a32 = 0.5 ∧
    ∀ (nG : ℕ) (c_light efloor dt : ℝ) (dx : Fin 3 → ℝ) (U0 U1 : RadCons nG)
      (fOL fOR fL fR : Fin 3 → RadCons nG),
      AddFluxesRK2_cell c_light efloor dt dx U0 U1 fOL fOR fL fR =
        if isStateValid c_light (specRK2Candidate dt dx U0 U1 fOL fOR fL fR) then
          specRK2Candidate dt dx U0 U1 fOL fOR fL fR
        else amendRadState c_light efloor (specRK2Candidate dt dx U0 U1 fOL fOR fL fR) := by
  refine ⟨rfl, ?_⟩
  intro nG c_light efloor dt dx U0 U1 fOL fOR fL fR
  have hcand : (fun g v =>
      (1 - IMEX_a32) * U0 g v + IMEX_a32 * U1 g v +
        (0.5 - IMEX_a32) * ((dt / dx 0) * (fOL 0 g v - fOR 0 g v) +
          (dt / dx 1) * (fOL 1 g v - fOR 1 g v) +
          (dt / dx 2) * (fOL 2 g v - fOR 2 g v)) +
        0.5 * ((dt / dx 0) * (fL 0 g v - fR 0 g v) +
          (dt / dx 1) * (fL 1 g v - fR 1 g v) +
          (dt / dx 2) * (fL 2 g v - fR 2 g v)) : RadCons nG) =
      specRK2Candidate dt dx U0 U1 fOL fOR fL fR := by
    funext g v
    simp only [specRK2Candidate, IMEX_a32, Fin.sum_univ_three]
  simp only [AddFluxesRK2_cell]
  rw [hcand]

/-- Claim C8: with nGroups = 1 the Planck energy fractions are exactly
[1.0] for any integral, scaling constants, boundaries and temperature; with
nGroups > 1, positive temperature and constants, a strictly increasing
nonnegative boundary array and the (strictly monotone) Planck integral, the
returned fractions sum to exactly 1. -/
theorem planck_energy_fractions_normalized :
    (∀ (I : ℝ → ℝ) (eu kB T : ℝ) (b : Fin 2 → ℝ),
      ComputePlanckEnergyFractions 1 I eu kB b T = fun _ => 1) ∧
    (∀ (nG : ℕ) (I : ℝ → ℝ) (eu kB T : ℝ) (b : Fin (nG + 1) → ℝ),
      1 < nG → PlanckIntegralSpec I → 0 < T → 0 < eu → 0 < kB →
      StrictMono b → 0 ≤ b 0 →
      ∑ g, ComputePlanckEnergyFractions nG I eu kB b T g = 1) := by
  constructor
  · intro I eu kB T b
    simp [ComputePlanckEnergyFractions]
  · intro nG I eu kB T b hnG hI hT heu hkB hb hb0
    have hne : nG ≠ 1 := by omega
    simp only [ComputePlanckEnergyFractions, if_neg hne]
    set s := eu / (kB * T) with hs
    have hspos : 0 < s := div_pos heu (mul_pos hkB hT)
    have hraw : ∀ g : Fin nG, 0 < I (b g.succ * s) - I (b g.castSucc * s) := by
      intro g
      have hc0 : 0 ≤ b g.castSucc := le_trans hb0 (hb.monotone (Fin.zero_le _))
      have hc1 : 0 ≤ b g.succ := le_trans hb0 (hb.monotone (Fin.zero_le _))
      have hlt : b g.castSucc * s < b g.succ * s :=
        mul_lt_mul_of_pos_right (hb (Fin.castSucc_lt_succ g)) hspos
      have := hI (Set.mem_Ici.mpr (mul_nonneg hc0 hspos.le))
        (Set.mem_Ici.mpr (mul_nonneg hc1 hspos.le)) hlt
      linarith
    have hnon : (Finset.univ : Finset (Fin nG)).Nonempty := by
      have : Nonempty (Fin nG) := ⟨⟨0, by omega⟩⟩
      exact Finset.univ_nonempty
    have htote : 0 < ∑ g2 : Fin nG, (I (b g2.succ * s) - I (b g2.castSucc * s)) :=
      Finset.sum_pos (fun g _ => hraw g) hnon
    rw [← Finset.sum_div, div_self (ne_of_gt htote)]

/-- Claim C9: a group whose optical depth is exactly 0 in every inner
Newton iteration keeps EradVec_guess equal to its input Erad0Vec entry
throughout (the guarded update never overwrites it), and a tau = 0 group's
entry is irrelevant both to the F_G residual accumulation and to the F_D
convergence sum. -/
theorem newton_tau_zero_group_frozen :
    (∀ (nG : ℕ) (d : NewtonIterData nG) (EradVec : Fin nG → ℝ) (g : Fin nG),
      d.tau g = 0 → newtonEradUpdate d EradVec g = EradVec g) ∧
    (∀ (nG : ℕ) (ds : ℕ → NewtonIterData nG) (Erad0Vec : Fin nG → ℝ) (g : Fin nG),
      (∀ n, (ds n).tau g = 0) →
      ∀ n, newtonEradIterate ds Erad0Vec n g = Erad0Vec g) ∧
    (∀ (nG : ℕ) (c_light c_hat Egas_guess Egas0 : ℝ) (tau Rvec : Fin nG → ℝ)
      (g : Fin nG) (x : ℝ), tau g = 0 →
      F_G_residual c_light c_hat Egas_guess Egas0 tau (Function.update Rvec g x) =
        F_G_residual c_light c_hat Egas_guess Egas0 tau Rvec) ∧
    (∀ (nG : ℕ) (tau F_D : Fin nG → ℝ) (g : Fin nG) (x : ℝ), tau g = 0 →
      F_D_abs_sum tau (Function.update F_D g x) = F_D_abs_sum tau F_D) := by
  refine ⟨?_, ?_, ?_, ?_⟩
  · intro nG d EradVec g h
    simp [newtonEradUpdate, h]
  · intro nG ds Erad0Vec g h n
    induction n with
    | zero => rfl
    | succ n ih =>
      simp only [newtonEradIterate]
      simp [newtonEradUpdate, h n, ih]
  · intro nG c_light c_hat Egas_guess Egas0 tau Rvec g x h
    unfold F_G_residual
    congr 1
    apply Finset.sum_congr rfl
    intro j _
    by_cases hj : j = g
    · subst hj
      rw [if_neg, if_neg] <;> simp [h]
    · rw [Function.update_noteq hj]
  · intro nG tau F_D g x h
    unfold F_D_abs_sum
    apply Finset.sum_congr rfl
    intro j _
    by_cases hj : j = g
    · subst hj
      rw [if_neg, if_neg] <;> simp [h]
    · rw [Function.update_noteq hj]

end QuokkaRad
